import Mathlib

/-!
Verification development for the MFFR Profit Tracker coordinator
(`custom_components/mffr_tracker/coordinator.py`).

The coordinator is shallowly embedded: Python floats become `ℚ` (all the
arithmetic involved is +, −, ×, ÷ and comparisons, which the rationals model
exactly), `None`-able values become `Option`, the price cache dict becomes an
association list, and `datetime` values become a record of calendar fields
with microsecond resolution.  Host-library calendar functions
(`date.isocalendar`, `.year`, `.month`) are abstracted as a `Calendar`
parameter, since they live in Python's standard library, not in this
repository.  Each tick of `_async_update_logic` becomes a pure state
transformer on `CoordState`.
-/

namespace MFFR

/-- A raw Python value arriving at `_normalize_price`: `None`, a value that
`float()` parses, or one that makes `float()` raise. -/
inductive PyVal where
  | none
  | num (q : ℚ)
  | badstr
deriving DecidableEq

/-- Python's `abs` on a rational, written so that the kernel can evaluate
it on concrete inputs. -/
def pabs (q : ℚ) : ℚ := if q < 0 then -q else q

/-- `pabs` agrees with the mathematical absolute value. -/
theorem pabs_eq_abs (q : ℚ) : pabs q = |q| := by
  unfold pabs
  rcases lt_or_le q 0 with h | h
  · rw [if_pos h, abs_of_neg h]
  · rw [if_neg (not_lt.mpr h), abs_of_nonneg h]

/-- `MFFRCoordinator._normalize_price`: `None`/unparseable → `None`;
otherwise divide by 1000 when the absolute value exceeds 5, else identity. -/
def normalize_price : PyVal → Option ℚ
  | PyVal.none => Option.none
  | PyVal.badstr => Option.none
  | PyVal.num v => some (if 5 < pabs v then v / 1000 else v)

/-- View an optional rational (e.g. a cache field read back via `.get`,
which yields `None` when absent) as the Python value fed to
`_normalize_price`. -/
def toPyVal : Option ℚ → PyVal
  | Option.none => PyVal.none
  | some q => PyVal.num q

/-- `_normalize_price` applied to an optional numeric value, as done on every
cache read and on the host-sourced reference price. -/
def normOpt (x : Option ℚ) : Option ℚ := normalize_price (toPyVal x)

/-- One price-cache record: the dict `{"mfrr_price": ..., "nps_price": ...}`.
A field holds `Option.none` when the key is absent or was stored as `None`
(indistinguishable through `.get`). -/
structure PriceRec where
  mfrr_price : Option ℚ
  nps_price : Option ℚ
deriving DecidableEq

/-- A Python `datetime` as the fields the coordinator reads: `day` is the
proleptic ordinal of the date, the rest are the time-of-day components. -/
structure PyDateTime where
  day : ℕ
  hour : ℕ
  minute : ℕ
  second : ℕ
  micro : ℕ
deriving DecidableEq

namespace PyDateTime

/-- Total microseconds represented by the field tuple (the quantity Python's
chronological order and `timedelta` arithmetic work on for valid fields). -/
def toAbsMicro (d : PyDateTime) : ℕ :=
  ((d.day * 24 + d.hour) * 60 + d.minute) * 60000000 + d.second * 1000000 + d.micro

/-- Rebuild normalized fields from a microsecond count. -/
def ofAbsMicro (t : ℕ) : PyDateTime :=
  ⟨t / 86400000000, t / 3600000000 % 24, t / 60000000 % 60, t / 1000000 % 60,
   t % 1000000⟩

/-- `d + timedelta(microseconds = k)`. -/
def addMicro (d : PyDateTime) (k : ℕ) : PyDateTime := ofAbsMicro (d.toAbsMicro + k)

/-- `(a - b).total_seconds()` as an exact rational. -/
def subSeconds (a b : PyDateTime) : ℚ :=
  ((a.toAbsMicro : ℤ) - (b.toAbsMicro : ℤ) : ℤ) / 1000000

/-- Chronological `b ≤ a` test, `Bool`-valued as in Python comparisons. -/
def geB (a b : PyDateTime) : Bool := b.toAbsMicro ≤ a.toAbsMicro

end PyDateTime

/-- `_quarter_start`: `ts.replace(minute=(ts.minute // 15) * 15, second=0,
microsecond=0)`. -/
def quarter_start (ts : PyDateTime) : PyDateTime :=
  { ts with minute := ts.minute / 15 * 15, second := 0, micro := 0 }

/-- The price cache `self._mffr_price_cache`: a dict keyed by the
quarter-aligned slot start (the code keys by its ISO string; start values
and their ISO strings are in bijection). -/
abbrev PriceCache : Type := List (PyDateTime × PriceRec)

/-- Dict lookup: first (most recently written) binding for the key. -/
def cacheGet : PriceCache → PyDateTime → Option PriceRec
  | [], _ => Option.none
  | (k, r) :: rest, key => if k = key then some r else cacheGet rest key

/-- Dict assignment `cache[key] = rec` (new binding shadows the old one). -/
def cacheSet (c : PriceCache) (key : PyDateTime) (r : PriceRec) : PriceCache :=
  (key, r) :: c

/-- `_get_slot_prices_for`: entry for the timestamp's aligned slot start, or
the empty record (`{}`) when absent. -/
def get_slot_prices_for (c : PriceCache) (ts : PyDateTime) : PriceRec :=
  (cacheGet c (quarter_start ts)).getD ⟨Option.none, Option.none⟩

/-- Truthiness of `_get_slot_prices_for(now)` — every stored entry carries at
least the `mfrr_price` key, so a dict is truthy exactly when the cache has an
entry for the slot. -/
def cacheHas (c : PriceCache) (ts : PyDateTime) : Bool :=
  (cacheGet c (quarter_start ts)).isSome

/-- Static configuration read from the config entry. -/
structure Config where
  fusebox_fee_pct : ℚ
  baseline_enabled : Bool
  nps_source : String
deriving DecidableEq

/-- `_select_nps_price`: choose between the cache's own reference price and
the host-sourced fallback according to the configured source mode. -/
def select_nps_price (cfg : Config) (slot_prices : PriceRec)
    (nordpool_price : Option ℚ) : Option ℚ × String :=
  let api_price := normOpt slot_prices.nps_price
  let fallback_price := normOpt nordpool_price
  if cfg.nps_source = "ha" then (fallback_price, "ha")
  else if cfg.nps_source = "api" then
    match api_price with
    | some p => (some p, "api")
    | Option.none => (fallback_price, "ha")
  else
    match api_price with
    | some p => (some p, "api")
    | Option.none => (fallback_price, "ha")

/-- Does the first character list start with the second (helper for the
Python `in` substring test)? -/
def startsWith : List Char → List Char → Bool
  | _, [] => true
  | [], _ :: _ => false
  | h :: hs, n :: ns => h = n && startsWith hs ns

/-- Python's `needle in haystack` substring test on character lists. -/
def hasSub : List Char → List Char → Bool
  | hay, need =>
    startsWith hay need ||
      match hay with
      | [] => false
      | _ :: t => hasSub t need

/-- `_mode_to_signal`: substring classification of the battery-mode text. -/
def mode_to_signal (mode : String) : String :=
  let m := mode.toLower
  if hasSub m.data "sell".data then "UP"
  else if hasSub m.data "buy".data then "DOWN"
  else "IDLE"

/-- The `Slot` dataclass. -/
structure Slot where
  start : PyDateTime
  stop : PyDateTime
  signal : String
  energy_kwh : ℚ := 0
  duration_s : ℚ := 0
  was_backup : Bool := false
  cancelled : Bool := false
  baseline_w : Option ℚ := Option.none
  mffr_price : Option ℚ := Option.none
  nordpool_price : Option ℚ := Option.none
  profit : Option ℚ := Option.none
deriving DecidableEq

/-- Host-library calendar functions on date ordinals (`isocalendar`, `.year`,
`.month` — Python standard library, outside this repository). -/
structure Calendar where
  isoWeekOf : ℕ → ℕ × ℕ
  monthOf : ℕ → ℕ
  yearOf : ℕ → ℕ

/-- The mutable coordinator state threaded through every tick. -/
structure CoordState where
  recent_slots : List Slot
  active_slot : Option Slot
  today_profit : ℚ
  today_date : Option ℕ
  week_profit : ℚ
  month_profit : ℚ
  week_key : Option (ℕ × ℕ)
  month_key : Option (ℕ × ℕ)
  year_profit : ℚ
  year_key : Option ℕ
  all_profit : ℚ
  up_count : ℕ
  down_count : ℕ
  baseline_sum_w : ℚ
  baseline_samples : ℕ
  baseline_last_w : ℚ
  last_ts : Option PyDateTime
  active_idle_s : ℚ
  price_cache : PriceCache
  last_price_fetch : Option PyDateTime
deriving DecidableEq

/-- The freshly-constructed coordinator state (`__init__`). -/
def initState : CoordState :=
  ⟨[], Option.none, 0, Option.none, 0, 0, Option.none, Option.none, 0,
   Option.none, 0, 0, 0, 0, 0, 0, Option.none, 0, [], Option.none⟩

/-- The day paragraph of `_async_finalize_previous_day` (lines 284–291):
on a date change, zero the day total and both activation counters. -/
def dayRoll (now : PyDateTime) (st : CoordState) : CoordState :=
  match st.today_date with
  | Option.none => { st with today_date := some now.day }
  | some d =>
    if now.day ≠ d then
      { st with today_profit := 0, up_count := 0, down_count := 0,
                today_date := some now.day }
    else st

/-- The ISO-week paragraph (lines 293–300). -/
def weekRoll (cal : Calendar) (now : PyDateTime) (st : CoordState) :
    CoordState :=
  let wk := cal.isoWeekOf now.day
  match st.week_key with
  | Option.none => { st with week_key := some wk }
  | some k =>
    if k ≠ wk then { st with week_profit := 0, week_key := some wk } else st

/-- The month paragraph (lines 302–309). -/
def monthRoll (cal : Calendar) (now : PyDateTime) (st : CoordState) :
    CoordState :=
  let ym := (cal.yearOf now.day, cal.monthOf now.day)
  match st.month_key with
  | Option.none => { st with month_key := some ym }
  | some k =>
    if k ≠ ym then { st with month_profit := 0, month_key := some ym } else st

/-- The year paragraph (lines 311–317). -/
def yearRoll (cal : Calendar) (now : PyDateTime) (st : CoordState) :
    CoordState :=
  let yr := cal.yearOf now.day
  match st.year_key with
  | Option.none => { st with year_key := some yr }
  | some k =>
    if k ≠ yr then { st with year_profit := 0, year_key := some yr } else st

/-- `_async_finalize_previous_day`: on every tick, compare each period key to
the stored one; on mismatch zero that period's total (and, for the day, the
two activation counters) and adopt the new key.  The all-time total is not
touched. -/
def finalize_previous_day (cal : Calendar) (now : PyDateTime) (st : CoordState) :
    CoordState :=
  yearRoll cal now (monthRoll cal now (weekRoll cal now (dayRoll now st)))

/-- The per-slot profit formula shared by `_finalize_active_slot` and the
backfill pass (lines 328–333 and 479–484 of the coordinator). -/
def profit_formula (fee : ℚ) (signal : String) (mp np energy : ℚ) : ℚ :=
  if signal = "UP" then (mp - np) * energy * (1 - fee)
  else if signal = "DOWN" then (np - mp) * energy * (1 - fee)
  else 0

/-- `_finalize_active_slot`: compute profit when both prices are known and
energy is positive, add it to the five running totals, bump the activation
counter, push the slot onto the bounded recent deque, and clear the active
slot. -/
def finalize_active_slot (cfg : Config) (st : CoordState) : CoordState :=
  match st.active_slot with
  | Option.none => st
  | some slot =>
    let fee := cfg.fusebox_fee_pct / 100
    let (slot, st) :=
      match slot.nordpool_price, slot.mffr_price with
      | some np, some mp =>
        if 0 < slot.energy_kwh then
          let profit := profit_formula fee slot.signal mp np slot.energy_kwh
          ({ slot with profit := some profit },
           { st with today_profit := st.today_profit + profit,
                     week_profit := st.week_profit + profit,
                     month_profit := st.month_profit + profit,
                     year_profit := st.year_profit + profit,
                     all_profit := st.all_profit + profit })
        else (slot, st)
      | _, _ => (slot, st)
    let st :=
      if slot.signal = "UP" then { st with up_count := st.up_count + 1 }
      else if slot.signal = "DOWN" then { st with down_count := st.down_count + 1 }
      else st
    { st with recent_slots := (slot :: st.recent_slots).take 48,
              active_slot := Option.none }

/-- `_update_baseline`: accumulate idle-power samples; within the last ten
seconds of a quarter, finalize the average into `last_w` and attach it to the
open slot when it has no baseline yet. -/
def update_baseline (battery_w : ℚ) (signal : String) (now : PyDateTime)
    (st : CoordState) : CoordState :=
  let st :=
    if signal = "IDLE" then
      { st with baseline_sum_w := st.baseline_sum_w + battery_w,
                baseline_samples := st.baseline_samples + 1 }
    else st
  if now.minute % 15 = 14 ∧ 50 ≤ now.second then
    let avg :=
      if 0 < st.baseline_samples then st.baseline_sum_w / st.baseline_samples
      else st.baseline_last_w
    let st := { st with baseline_sum_w := 0, baseline_samples := 0,
                        baseline_last_w := avg }
    match st.active_slot with
    | some s =>
      if s.baseline_w = Option.none then
        { st with active_slot := some { s with baseline_w := some avg } }
      else st
    | Option.none => st
  else st

/-- One record of the FRR feed's `data` array, after datetime parsing:
`start` is `Option.none` when the `start` field is missing, falsy or
unparseable. -/
structure FeedItem where
  start : Option PyDateTime
  mfrr_price : PyVal
  nps_price : PyVal

/-- The merge loop of `_fetch_mffr_prices`: skip records without a parseable
start or with a `None` balancing price; normalize and store the balancing
price; store the normalized reference price only when the raw one is not
`None` (preserving an existing field otherwise). -/
def insertFeedItem (cache : PriceCache) (it : FeedItem) : PriceCache :=
  match it.start with
  | Option.none => cache
  | some dt =>
    if it.mfrr_price = PyVal.none then cache
    else
      let key := quarter_start dt
      let rec0 := (cacheGet cache key).getD ⟨Option.none, Option.none⟩
      let rec1 := { rec0 with mfrr_price := normalize_price it.mfrr_price }
      let rec2 :=
        if it.nps_price = PyVal.none then rec1
        else { rec1 with nps_price := normalize_price it.nps_price }
      cacheSet cache key rec2

/-- `_fetch_mffr_prices` on a successfully decoded body: merge every record. -/
def mergeFeed (cache : PriceCache) (items : List FeedItem) : PriceCache :=
  items.foldl insertFeedItem cache

/-- `_async_update_prices_if_needed`: fetch at most once per 60 seconds and
only when the current slot has no cache entry.  The network response is an
oracle input: `Option.none` models any fetch failure (the fetch swallows it
and caches nothing), `some items` a decoded body.  `last_price_fetch` is set
to `now` whenever a fetch was attempted, success or not. -/
def update_prices_if_needed (now : PyDateTime)
    (response : Option (List FeedItem)) (st : CoordState) : CoordState :=
  if cacheHas st.price_cache now then st
  else
    let due :=
      match st.last_price_fetch with
      | Option.none => true
      | some t => decide ((60000000 : ℤ) ≤ (now.toAbsMicro : ℤ) - t.toAbsMicro)
    if due then
      let cache :=
        match response with
        | Option.none => st.price_cache
        | some items => mergeFeed st.price_cache items
      { st with price_cache := cache, last_price_fetch := some now }
    else st

/-- The early-cancellation heuristic body (lines 433–443): feed the elapsed
seconds into the low-power accumulator and report whether the grace period
was reached. -/
def idleHeuristic (idle_s dt_s mffr_power_w : ℚ) : ℚ × Bool :=
  let idle := if mffr_power_w ≤ 100 then idle_s + dt_s else 0
  (idle, 60 ≤ idle)

/-- Lines 415–418: with no open slot and an active signal, open a fresh slot
at the current quarter boundary, `was_backup` unless within the boundary's
first ten seconds. -/
def openStep (sig : String) (now : PyDateTime) (st : CoordState) :
    CoordState :=
  match st.active_slot with
  | Option.none =>
    let was_backup := ¬ (now.minute % 15 = 0 ∧ now.second < 10)
    let fresh : Slot :=
      { start := quarter_start now,
        stop := (quarter_start now).addMicro 900000000, signal := sig,
        was_backup := was_backup }
    { st with active_slot := some fresh, active_idle_s := 0 }
  | some _ => st

/-- Lines 419–422: on an opposite signal, finalize the open slot and reopen
a backup slot for the new signal. -/
def reopenStep (cfg : Config) (sig : String) (now : PyDateTime)
    (st : CoordState) : CoordState :=
  match st.active_slot with
  | some s =>
    if s.signal ≠ sig then
      let st2 := finalize_active_slot cfg st
      let fresh : Slot :=
        { start := quarter_start now,
          stop := (quarter_start now).addMicro 900000000, signal := sig,
          was_backup := true }
      { st2 with active_slot := some fresh, active_idle_s := 0 }
    else st
  | Option.none => st

/-- Lines 424–446: extend the open slot (prices, baseline, energy, duration)
and run the early-cancellation heuristic. -/
def extendStep (cfg : Config) (chosen_nps mffr_price baseline_w : Option ℚ)
    (mffr_power_w dt_s : ℚ) (st : CoordState) : CoordState :=
  match st.active_slot with
  | some s =>
    let s := { s with
      nordpool_price := chosen_nps,
      mffr_price := mffr_price,
      baseline_w := (match s.baseline_w with
        | some b => some b
        | Option.none => baseline_w),
      energy_kwh := s.energy_kwh + mffr_power_w * dt_s / 3600000,
      duration_s := s.duration_s + dt_s }
    let (idle, trip) := idleHeuristic st.active_idle_s dt_s mffr_power_w
    if trip then
      let st := finalize_active_slot cfg
        { st with active_slot := some { s with cancelled := true } }
      { st with active_idle_s := 0 }
    else { st with active_slot := some s, active_idle_s := idle }
  | Option.none => st

/-- Lines 447–451: on `IDLE` with an open slot, mark cancelled and finalize
immediately. -/
def idleStep (cfg : Config) (st : CoordState) : CoordState :=
  match st.active_slot with
  | some s =>
    let st := finalize_active_slot cfg
      { st with active_slot := some { s with cancelled := true } }
    { st with active_idle_s := 0 }
  | Option.none => st

/-- Lines 453–458: finalize once the wall clock reaches the slot's stored
end. -/
def endStep (cfg : Config) (now : PyDateTime) (st : CoordState) : CoordState :=
  match st.active_slot with
  | some s =>
    if now.geB s.stop then
      let st := finalize_active_slot cfg st
      { st with active_idle_s := 0 }
    else st
  | Option.none => st

/-- The slot state machine portion of `_async_update_logic` (lines 414–458):
open / reopen / extend / early-cancel on an active signal, cancel-and-finalize
on `IDLE`, then finalize when the wall clock reaches the slot's stored end. -/
def slotLogic (cfg : Config) (signal : String) (chosen_nps mffr_price : Option ℚ)
    (baseline_w : Option ℚ) (mffr_power_w dt_s : ℚ) (now : PyDateTime)
    (st : CoordState) : CoordState :=
  let st :=
    if signal = "UP" ∨ signal = "DOWN" then
      extendStep cfg chosen_nps mffr_price baseline_w mffr_power_w dt_s
        (reopenStep cfg signal now (openStep signal now st))
    else idleStep cfg st
  endStep cfg now st

/-- One step of the backfill loop (lines 462–490): for a finalized slot with
no profit yet and positive energy, fill whichever price is still missing from
the cache (the reference price through `_select_nps_price` with a `None`
fallback), and if both are now known compute the profit.  Returns the updated
slot and the profit added to the totals, if any. -/
def backfillSlot (cfg : Config) (cache : PriceCache) (s : Slot) :
    Slot × Option ℚ :=
  if s.profit ≠ Option.none ∨ s.energy_kwh ≤ 0 then (s, Option.none)
  else
    let cached := get_slot_prices_for cache s.start
    let cached_mffr := normOpt cached.mfrr_price
    let s :=
      if s.mffr_price = Option.none ∧ cached_mffr ≠ Option.none then
        { s with mffr_price := cached_mffr }
      else s
    let cached_nps := (select_nps_price cfg cached Option.none).1
    let s :=
      if s.nordpool_price = Option.none ∧ cached_nps ≠ Option.none then
        { s with nordpool_price := cached_nps }
      else s
    match s.nordpool_price, s.mffr_price with
    | some np, some mp =>
      let fee := cfg.fusebox_fee_pct / 100
      let p := profit_formula fee s.signal mp np s.energy_kwh
      ({ s with profit := some p }, some p)
    | _, _ => (s, Option.none)

/-- One iteration of the backfill loop as a state step: replace the slot in
the rebuilt deque and add any newly computed profit to the five totals. -/
def backfillStep (cfg : Config) (cache : PriceCache) (acc : CoordState)
    (s : Slot) : CoordState :=
  let (s2, d) := backfillSlot cfg cache s
  match d with
  | Option.none => { acc with recent_slots := acc.recent_slots ++ [s2] }
  | some p =>
    { acc with recent_slots := acc.recent_slots ++ [s2],
               today_profit := acc.today_profit + p,
               week_profit := acc.week_profit + p,
               month_profit := acc.month_profit + p,
               year_profit := acc.year_profit + p,
               all_profit := acc.all_profit + p }

/-- The backfill pass over the recent-slot deque (lines 460–490), updating
each slot in place and adding every newly computed profit to the five running
totals. -/
def backfillPass (cfg : Config) (st : CoordState) : CoordState :=
  st.recent_slots.foldl (backfillStep cfg st.price_cache)
    { st with recent_slots := [] }

/-- The host-supplied inputs of one polling tick: the clock, the three sensor
readings, and the price-feed response oracle. -/
structure TickInput where
  now : PyDateTime
  mode : String
  battery : PyVal
  nordpool_raw : PyVal
  response : Option (List FeedItem)

/-- `_async_update_logic` as a pure state transformer: period rollover, input
classification, price refresh and selection, baseline update, slot state
machine, then the backfill pass. -/
def tick (cfg : Config) (cal : Calendar) (inp : TickInput) (st : CoordState) :
    CoordState :=
  let now := inp.now
  let st := finalize_previous_day cal now st
  let signal := mode_to_signal inp.mode
  let battery_w : ℚ :=
    match inp.battery with
    | PyVal.num q => q
    | _ => 0
  let nordpool := normalize_price inp.nordpool_raw
  let st := update_prices_if_needed now inp.response st
  let slot_prices := get_slot_prices_for st.price_cache now
  let mffr_price := normOpt slot_prices.mfrr_price
  let chosen_nps := (select_nps_price cfg slot_prices nordpool).1
  let last := (st.last_ts).getD now
  let dt_s : ℚ := if 0 < now.subSeconds last then now.subSeconds last else 0
  let st := { st with last_ts := some now }
  let st := update_baseline battery_w signal now st
  let (baseline_w, mffr_power_w) :=
    if cfg.baseline_enabled then
      let b :=
        if 0 < st.baseline_samples then
          st.baseline_sum_w / (max 1 st.baseline_samples : ℕ)
        else st.baseline_last_w
      (some b, pabs (battery_w - b))
    else (Option.none, pabs battery_w)
  let st := slotLogic cfg signal chosen_nps mffr_price baseline_w
    mffr_power_w dt_s now st
  backfillPass cfg st

/-- A numeric field of the stored blob as seen by `float(...)` / `int(...)`:
absent (so the `.get` default applies), a parseable value, or a value on
which the conversion raises. -/
inductive NumField (α : Type) where
  | absent
  | val (q : α)
  | bad
deriving DecidableEq

/-- Read a blob field through `float(data.get(key, 0.0))` (or `int(..., 0)`):
`Option.none` models the conversion raising. -/
def readField {α : Type} (default : α) : NumField α → Option α
  | NumField.absent => some default
  | NumField.val q => some q
  | NumField.bad => Option.none

/-- The stored blob as `async_load_state` inspects it.  `today_date` is
`Option.none` when absent or falsy, `some Option.none` when present but the
`y-m-d` parse raises (the inner `try` turns that into no adoption), and
`some (some d)` when it parses to the date ordinal `d`.  The key fields are
`Option.none` whenever the `isinstance`/shape guard fails. -/
structure Blob where
  today_date : Option (Option ℕ)
  today_profit : NumField ℚ
  up_count : NumField ℕ
  down_count : NumField ℕ
  week_key : Option (ℕ × ℕ)
  week_profit : NumField ℚ
  month_key : Option (ℕ × ℕ)
  month_profit : NumField ℚ
  year_key : Option ℕ
  year_profit : NumField ℚ
  all_profit : NumField ℚ
deriving DecidableEq

/-- The blob the loader sees when the store held nothing (`... or {}`). -/
def emptyBlob : Blob :=
  ⟨Option.none, NumField.absent, NumField.absent, NumField.absent, Option.none,
   NumField.absent, Option.none, NumField.absent, Option.none, NumField.absent,
   NumField.absent⟩

/-- The day block of `async_load_state` (lines 119–130), in an error monad
whose error value is the state at the point the exception was raised — the
surrounding `try` keeps every mutation made before that point. -/
def loadDay (now : PyDateTime) (b : Blob) (st : CoordState) :
    Except CoordState CoordState :=
  match b.today_date with
  | Option.none => Except.ok st
  | some parsed =>
    match parsed with
    | Option.none => Except.ok st
    | some d =>
      if d = now.day then
        let st := { st with today_date := some d }
        match readField (0 : ℚ) b.today_profit with
        | Option.none => Except.error st
        | some q =>
          let st := { st with today_profit := q }
          match readField (0 : ℕ) b.up_count with
          | Option.none => Except.error st
          | some n =>
            let st := { st with up_count := n }
            match readField (0 : ℕ) b.down_count with
            | Option.none => Except.error st
            | some n2 => Except.ok { st with down_count := n2 }
      else Except.ok st

/-- The week block of `async_load_state` (lines 132–137). -/
def loadWeek (cal : Calendar) (now : PyDateTime) (b : Blob) (st : CoordState) :
    Except CoordState CoordState :=
  match b.week_key with
  | Option.none => Except.ok st
  | some wk =>
    if wk = cal.isoWeekOf now.day then
      let st := { st with week_key := some wk }
      match readField (0 : ℚ) b.week_profit with
      | Option.none => Except.error st
      | some q => Except.ok { st with week_profit := q }
    else Except.ok st

/-- The month block of `async_load_state` (lines 139–143). -/
def loadMonth (cal : Calendar) (now : PyDateTime) (b : Blob) (st : CoordState) :
    Except CoordState CoordState :=
  match b.month_key with
  | Option.none => Except.ok st
  | some mk =>
    if mk = (cal.yearOf now.day, cal.monthOf now.day) then
      let st := { st with month_key := some mk }
      match readField (0 : ℚ) b.month_profit with
      | Option.none => Except.error st
      | some q => Except.ok { st with month_profit := q }
    else Except.ok st

/-- The year block of `async_load_state` (lines 145–149). -/
def loadYear (cal : Calendar) (now : PyDateTime) (b : Blob) (st : CoordState) :
    Except CoordState CoordState :=
  match b.year_key with
  | Option.none => Except.ok st
  | some yk =>
    if yk = cal.yearOf now.day then
      let st := { st with year_key := some yk }
      match readField (0 : ℚ) b.year_profit with
      | Option.none => Except.error st
      | some q => Except.ok { st with year_profit := q }
    else Except.ok st

/-- `async_load_state`: run the four keyed blocks and the unconditional
all-time adoption inside one `try`; any raise is swallowed, leaving exactly
the mutations made before it. -/
def async_load_state (cal : Calendar) (now : PyDateTime) (blob : Option Blob)
    (st : CoordState) : CoordState :=
  let b := blob.getD emptyBlob
  let r : Except CoordState CoordState := do
    let st ← loadDay now b st
    let st ← loadWeek cal now b st
    let st ← loadMonth cal now b st
    let st ← loadYear cal now b st
    match readField (0 : ℚ) b.all_profit with
    | Option.none => Except.error st
    | some q => Except.ok { st with all_profit := q }
  match r with
  | Except.ok s => s
  | Except.error s => s

/-! ### Concrete fixtures used by witnesses and counterexamples -/

/-- A quarter-aligned slot start: day ordinal 739000, 10:00:00.000000. -/
def d0 : PyDateTime := ⟨739000, 10, 0, 0, 0⟩

/-- The matching slot end, 10:15:00. -/
def d1 : PyDateTime := ⟨739000, 10, 15, 0, 0⟩

/-- A simple concrete calendar for witnesses (any `Calendar` works in the
theorems; the claims never depend on the calendar's arithmetic). -/
def cal0 : Calendar := ⟨fun d => (d, 1), fun _ => 1, fun d => d⟩

/-- 20 % fee, baseline subtraction off, host-sourced reference price. -/
def cfgHa : Config := ⟨20, false, "ha"⟩

/-- 20 % fee, baseline subtraction off, automatic reference-price mode. -/
def cfgAuto : Config := ⟨20, false, "auto"⟩

/-! ### Helper lemmas -/

/-- A slot whose profit is already set is skipped whole by the backfill
loop: unchanged slot, no totals contribution. -/
theorem backfillSlot_profit_set (cfg : Config) (cache : PriceCache) (s : Slot)
    (h : s.profit ≠ Option.none) :
    backfillSlot cfg cache s = (s, Option.none) := by
  simp [backfillSlot, h]

/-- Folding the backfill step over slots that all carry a profit only copies
them back into the deque. -/
theorem backfillFold_all_set (cfg : Config) (cache : PriceCache) :
    ∀ (l : List Slot) (acc : CoordState),
      (∀ s, s ∈ l → s.profit ≠ Option.none) →
      l.foldl (backfillStep cfg cache) acc =
        { acc with recent_slots := acc.recent_slots ++ l } := by
  intro l
  induction l with
  | nil => intro acc _; simp
  | cons s t ih =>
    intro acc h
    have hs : s.profit ≠ Option.none := h s (List.mem_cons_self s t)
    have ht : ∀ x, x ∈ t → x.profit ≠ Option.none :=
      fun x hx => h x (List.mem_cons_of_mem s hx)
    simp only [List.foldl_cons, backfillStep, backfillSlot_profit_set cfg cache s hs]
    rw [ih _ ht]
    simp

/-- When every recent slot already has a profit, the whole backfill pass is
the identity. -/
theorem backfillPass_all_set (cfg : Config) (st : CoordState)
    (h : ∀ s, s ∈ st.recent_slots → s.profit ≠ Option.none) :
    backfillPass cfg st = st := by
  unfold backfillPass
  rw [backfillFold_all_set cfg st.price_cache st.recent_slots _ h]
  simp

/-! ### Claim theorems -/

/-- Claim C6: `_normalize_price` maps null or unparseable input to absent,
divides any parseable value whose absolute magnitude exceeds 5 by 1000, and
returns any other parseable value unchanged; 0.045 ↦ 0.045 and
48.3 ↦ 0.0483.  The very same `normalize_price` is invoked on feed-sourced
prices (`insertFeedItem`, the cache reads in `tick` and `backfillSlot`) and
on the host-sourced reference price (`tick`, `select_nps_price`). -/
theorem C6_price_normalization :
    normalize_price PyVal.none = Option.none ∧
    normalize_price PyVal.badstr = Option.none ∧
    (∀ v : ℚ, 5 < |v| → normalize_price (PyVal.num v) = some (v / 1000)) ∧
    (∀ v : ℚ, |v| ≤ 5 → normalize_price (PyVal.num v) = some v) ∧
    normalize_price (PyVal.num (45 / 1000)) = some (45 / 1000) ∧
    normalize_price (PyVal.num (483 / 10)) = some (483 / 10000) := by
  refine ⟨rfl, rfl, ?_, ?_, ?_, ?_⟩
  · intro v h; simp [normalize_price, pabs_eq_abs, h]
  · intro v h; simp [normalize_price, pabs_eq_abs, not_lt.mpr h]
  · norm_num [normalize_price, pabs]
  · norm_num [normalize_price, pabs]

/-- Witness for C6 at the spec's concrete input 48.3. -/
theorem C6_price_normalization_witness :
    5 < |(483 / 10 : ℚ)| ∧
    normalize_price (PyVal.num (483 / 10)) = some ((483 / 10) / 1000) :=
  ⟨by rw [← pabs_eq_abs]; norm_num [pabs],
   C6_price_normalization.2.2.1 (483 / 10) (by rw [← pabs_eq_abs]; norm_num [pabs])⟩

/-- Claim C7: backfill only processes slots whose profit is still absent; a
slot with a profit is left untouched (same slot, no totals contribution),
and a pass over a deque of completed slots changes nothing at all. -/
theorem C7_backfill_never_overwrites :
    (∀ cfg cache s, s.profit ≠ Option.none →
      backfillSlot cfg cache s = (s, Option.none)) ∧
    (∀ cfg st, (∀ s, s ∈ st.recent_slots → s.profit ≠ Option.none) →
      backfillPass cfg st = st) :=
  ⟨backfillSlot_profit_set, backfillPass_all_set⟩

/-- Witness for C7 on a concrete completed slot and a one-slot deque. -/
theorem C7_backfill_never_overwrites_witness :
    (let s : Slot := { start := d0, stop := d1, signal := "UP",
                       energy_kwh := 1, profit := some 1 }
     backfillSlot cfgHa [] s = (s, Option.none) ∧
     backfillPass cfgHa { initState with recent_slots := [s] } =
       { initState with recent_slots := [s] }) := by
  refine ⟨C7_backfill_never_overwrites.1 cfgHa [] _ (by decide), ?_⟩
  exact C7_backfill_never_overwrites.2 cfgHa _ (by decide)

/-- Claim C2: finalizing an active slot with both prices present and strictly
positive energy sets its profit to `(mp − np) · energy · (1 − fee)` for `UP`
and `(np − mp) · energy · (1 − fee)` for `DOWN`, and adds that same amount to
all five running period totals; the slot moves to the head of the recent
deque and the active slot is cleared. -/
theorem C2_finalize_profit (cfg : Config) (st : CoordState) (s : Slot)
    (np mp : ℚ)
    (hact : st.active_slot = some s)
    (hnp : s.nordpool_price = some np)
    (hmp : s.mffr_price = some mp)
    (he : 0 < s.energy_kwh)
    (hsig : s.signal = "UP" ∨ s.signal = "DOWN") :
    (finalize_active_slot cfg st).today_profit =
        st.today_profit + profit_formula (cfg.fusebox_fee_pct / 100) s.signal
          mp np s.energy_kwh ∧
    (finalize_active_slot cfg st).week_profit =
        st.week_profit + profit_formula (cfg.fusebox_fee_pct / 100) s.signal
          mp np s.energy_kwh ∧
    (finalize_active_slot cfg st).month_profit =
        st.month_profit + profit_formula (cfg.fusebox_fee_pct / 100) s.signal
          mp np s.energy_kwh ∧
    (finalize_active_slot cfg st).year_profit =
        st.year_profit + profit_formula (cfg.fusebox_fee_pct / 100) s.signal
          mp np s.energy_kwh ∧
    (finalize_active_slot cfg st).all_profit =
        st.all_profit + profit_formula (cfg.fusebox_fee_pct / 100) s.signal
          mp np s.energy_kwh ∧
    profit_formula (cfg.fusebox_fee_pct / 100) s.signal mp np s.energy_kwh =
        (if s.signal = "UP" then (mp - np) * s.energy_kwh *
            (1 - cfg.fusebox_fee_pct / 100)
         else (np - mp) * s.energy_kwh * (1 - cfg.fusebox_fee_pct / 100)) ∧
    (finalize_active_slot cfg st).recent_slots.head? = some { s with profit := some (profit_formula (cfg.fusebox_fee_pct / 100) s.signal mp np s.energy_kwh) } ∧
    (finalize_active_slot cfg st).active_slot = Option.none := by
  have formula : profit_formula (cfg.fusebox_fee_pct / 100) s.signal mp np
      s.energy_kwh =
      (if s.signal = "UP" then (mp - np) * s.energy_kwh *
          (1 - cfg.fusebox_fee_pct / 100)
       else (np - mp) * s.energy_kwh * (1 - cfg.fusebox_fee_pct / 100)) := by
    rcases hsig with h | h <;> simp [profit_formula, h]
  rcases hsig with h | h <;>
    simp [finalize_active_slot, profit_formula, hact, hnp, hmp, he, h, formula,
      List.head?]

/-- The spec scenario's slot: full 900 s `UP` activation at 1000 W with
baseline 0, balancing price 0.10, reference price 0.08. -/
def slotW : Slot :=
  { start := d0, stop := d1, signal := "UP",
    energy_kwh := 1000 * 900 / 3600000,
    mffr_price := some (1 / 10), nordpool_price := some (2 / 25) }

/-- A coordinator state holding `slotW` as the active slot. -/
def stW : CoordState := { initState with active_slot := some slotW }

/-- Witness for C2: the spec's scenario — full 900 s `UP` slot at 1000 W with
baseline 0 gives `energy = 1000 · 900 / 3 600 000 = 0.25` kWh, and with
balancing price 0.10, reference 0.08 and fee 20 % the profit 0.004 is added
to the totals. -/
theorem C2_finalize_profit_witness :
    slotW.energy_kwh = 1 / 4 ∧
    (finalize_active_slot cfgHa stW).all_profit = stW.all_profit + 1 / 250 ∧
    (finalize_active_slot cfgHa stW).today_profit =
      stW.today_profit + 1 / 250 := by
  have h := C2_finalize_profit cfgHa stW slotW (2 / 25) (1 / 10) rfl rfl rfl
    (by norm_num [slotW]) (Or.inl rfl)
  refine ⟨by norm_num [slotW], ?_, ?_⟩
  · rw [h.2.2.2.2.1]
    norm_num [profit_formula, cfgHa, slotW]
  · rw [h.1]
    norm_num [profit_formula, cfgHa, slotW]

/-- With a `None` fallback (as the backfill pass passes), `_select_nps_price`
yields nothing in `ha` mode and exactly the cache's (re-normalized) reference
price in every other mode. -/
theorem select_nps_price_none_fallback (cfg : Config) (r : PriceRec) :
    (select_nps_price cfg r Option.none).1 =
      (if cfg.nps_source = "ha" then Option.none else normOpt r.nps_price) := by
  have hnone : normOpt Option.none = Option.none := rfl
  rcases hr : normOpt r.nps_price with _ | p <;>
    by_cases h1 : cfg.nps_source = "ha" <;>
      by_cases h2 : cfg.nps_source = "api" <;>
        simp [select_nps_price, h1, h2, hr, hnone]

/-- A cache entry for `d0` carrying both a balancing and a reference price. -/
def cacheC1 : PriceCache := [(d0, ⟨some (1 / 10), some (2 / 25)⟩)]

/-- A finalized slot still missing its reference price and profit. -/
def sC1 : Slot :=
  { start := d0, stop := d1, signal := "UP", energy_kwh := 1,
    mffr_price := some (1 / 10) }

/-- Counterexample to claim C1: in `ha` source mode the backfill pass does
not fill a missing reference price even though the cache entry for the
slot's start holds one — `_select_nps_price` is consulted with a `None`
fallback and returns nothing in `ha` mode, so the slot stays incomplete and
unprofitable forever. -/
theorem C1_counterexample :
    (get_slot_prices_for cacheC1 sC1.start).nps_price = some (2 / 25) ∧
    sC1.profit = Option.none ∧
    sC1.nordpool_price = Option.none ∧
    0 < sC1.energy_kwh ∧
    cfgHa.nps_source = "ha" ∧
    (backfillSlot cfgHa cacheC1 sC1).1.nordpool_price = Option.none ∧
    (backfillSlot cfgHa cacheC1 sC1).1.profit = Option.none := by
  refine ⟨?_, rfl, rfl, by norm_num [sC1], rfl, ?_, ?_⟩ <;>
    norm_num [backfillSlot, get_slot_prices_for, cacheGet, quarter_start,
      select_nps_price, normOpt, toPyVal, normalize_price, pabs, cacheC1,
      sC1, cfgHa, d0]

/-- Claim C1, amended: during backfill a missing balancing price is always
filled from the cache entry keyed by the slot's start, but a missing
reference price is filled from that entry only when the reference-price
source mode is not `ha`; under `ha` the cached reference price is ignored
and the slot's reference price stays absent. -/
theorem C1_backfill_fill_amended (cfg : Config) (cache : PriceCache) (s : Slot)
    (hp : s.profit = Option.none) (he : 0 < s.energy_kwh) :
    ((backfillSlot cfg cache s).1.mffr_price =
      (if s.mffr_price = Option.none ∧
          normOpt (get_slot_prices_for cache s.start).mfrr_price ≠ Option.none
       then normOpt (get_slot_prices_for cache s.start).mfrr_price
       else s.mffr_price)) ∧
    ((backfillSlot cfg cache s).1.nordpool_price =
      (if cfg.nps_source ≠ "ha" ∧ s.nordpool_price = Option.none ∧
          normOpt (get_slot_prices_for cache s.start).nps_price ≠ Option.none
       then normOpt (get_slot_prices_for cache s.start).nps_price
       else s.nordpool_price)) := by
  have hcond : ¬ (s.profit ≠ Option.none ∨ s.energy_kwh ≤ 0) := by
    simp [hp, not_le.mpr he]
  rcases hm : s.mffr_price with _ | mp <;>
    rcases hn : s.nordpool_price with _ | np <;>
      rcases hc : normOpt (get_slot_prices_for cache s.start).mfrr_price
        with _ | cm <;>
      rcases hs : normOpt (get_slot_prices_for cache s.start).nps_price
        with _ | cn <;>
      by_cases hha : cfg.nps_source = "ha" <;>
        simp [backfillSlot, hcond, hm, hn, hc, hha,
          select_nps_price_none_fallback, hs]

/-- Witness for the amended C1: in `auto` mode the same slot and cache do
get the reference price backfilled. -/
theorem C1_backfill_fill_amended_witness :
    sC1.profit = Option.none ∧ 0 < sC1.energy_kwh ∧
    (backfillSlot cfgAuto cacheC1 sC1).1.nordpool_price = some (2 / 25) := by
  have h := (C1_backfill_fill_amended cfgAuto cacheC1 sC1 rfl
    (by norm_num [sC1])).2
  refine ⟨rfl, by norm_num [sC1], ?_⟩
  rw [h]
  have hv : normOpt (get_slot_prices_for cacheC1 sC1.start).nps_price =
      some (2 / 25) := by
    norm_num [get_slot_prices_for, cacheGet, quarter_start, normOpt, toPyVal,
      normalize_price, pabs, cacheC1, sC1, d0]
  have hcond : cfgAuto.nps_source ≠ "ha" := by decide
  have hn : sC1.nordpool_price = Option.none := rfl
  rw [if_pos ⟨hcond, hn, by rw [hv]; exact Option.some_ne_none _⟩]
  exact hv

/-- Claim C10: feed prices are normalized once on cache insertion
(`insertFeedItem` stores `normalize_price` of the raw value) and again on
every cache read (`normOpt`, used by `tick` and `backfillSlot`); for a raw
value of magnitude above 5000 the composition divides by 1 000 000 instead
of 1000, while a raw value whose normalized form has magnitude at most 5
(equivalently, raw magnitude at most 5000) passes the second application
unchanged. -/
theorem C10_double_normalization :
    (∀ v : ℚ, 5000 < |v| →
      normOpt (normalize_price (PyVal.num v)) = some (v / 1000000)) ∧
    (∀ w : ℚ, |w| ≤ 5 → normOpt (some w) = some w) ∧
    (∀ v w : ℚ, |v| ≤ 5000 → normalize_price (PyVal.num v) = some w →
      |w| ≤ 5) ∧
    (∀ (cache : PriceCache) (d : PyDateTime) (v : ℚ) (x : PyVal),
      (get_slot_prices_for
          (insertFeedItem cache ⟨some d, PyVal.num v, x⟩) d).mfrr_price =
        normalize_price (PyVal.num v)) := by
  refine ⟨?_, ?_, ?_, ?_⟩
  · intro v hv
    have h5 : 5 < |v| := lt_trans (by norm_num) hv
    have hq : 5 < |v / 1000| := by
      rw [abs_div]
      rw [lt_div_iff₀ (by norm_num : (0:ℚ) < |1000|)]
      calc 5 * |(1000:ℚ)| = 5000 := by norm_num
        _ < |v| := hv
    simp only [normalize_price, pabs_eq_abs, if_pos h5, normOpt, toPyVal,
      if_pos hq]
    rw [div_div]
    norm_num
  · intro w hw
    simp [normOpt, toPyVal, normalize_price, pabs_eq_abs, not_lt.mpr hw]
  · intro v w hv hw
    by_cases h5 : 5 < |v|
    · have : w = v / 1000 := by
        simp [normalize_price, pabs_eq_abs, if_pos h5] at hw
        exact hw.symm
      subst this
      rw [abs_div]
      rw [div_le_iff₀ (by norm_num : (0:ℚ) < |1000|)]
      calc |v| ≤ 5000 := hv
        _ = 5 * |(1000:ℚ)| := by norm_num
    · have : w = v := by
        simp [normalize_price, pabs_eq_abs, if_neg h5] at hw
        exact hw.symm
      subst this
      exact not_lt.mp h5
  · intro cache d v x
    rcases x with _ | q | _ <;>
      simp [get_slot_prices_for, insertFeedItem, cacheSet, cacheGet]

/-- Witness for C10 at raw value 6000: the price actually read back is
6000⁄1 000 000 = 0.006, not 6. -/
theorem C10_double_normalization_witness :
    5000 < |(6000 : ℚ)| ∧
    normOpt (normalize_price (PyVal.num 6000)) = some (6000 / 1000000) :=
  ⟨by rw [abs_of_nonneg] <;> norm_num,
   C10_double_normalization.1 6000 (by rw [abs_of_nonneg] <;> norm_num)⟩

/-- A stored blob whose day section restores cleanly but whose
`week_profit` is unparseable, while a valid all-time total is also stored. -/
def blobX : Blob :=
  { today_date := some (some 739000), today_profit := NumField.val 5,
    up_count := NumField.absent, down_count := NumField.absent,
    week_key := some (739000, 1), week_profit := NumField.bad,
    month_key := Option.none, month_profit := NumField.absent,
    year_key := Option.none, year_profit := NumField.absent,
    all_profit := NumField.val 7 }

/-- Counterexample to claim C4: a deserialization error does not leave the
loader as if nothing had been stored — mutations made before the error
survive (the day totals are adopted) while later ones are lost (the stored
all-time total 7 is not adopted, contradicting unconditional adoption as
well). -/
theorem C4_counterexample :
    (async_load_state cal0 d0 (some blobX) initState).today_profit = 5 ∧
    blobX.all_profit = NumField.val 7 ∧
    (async_load_state cal0 d0 (some blobX) initState).all_profit = 0 ∧
    async_load_state cal0 d0 (some blobX) initState ≠
      async_load_state cal0 d0 Option.none initState := by
  have h1 : (async_load_state cal0 d0 (some blobX) initState).today_profit =
      5 := rfl
  have h2 : (async_load_state cal0 d0 Option.none initState).today_profit =
      0 := rfl
  refine ⟨h1, rfl, rfl, fun h => ?_⟩
  rw [h, h2] at h1
  norm_num at h1

/-- No numeric field of the blob makes `float()`/`int()` raise. -/
def blobWellFormed (b : Blob) : Prop :=
  b.today_profit ≠ NumField.bad ∧ b.up_count ≠ NumField.bad ∧
  b.down_count ≠ NumField.bad ∧ b.week_profit ≠ NumField.bad ∧
  b.month_profit ≠ NumField.bad ∧ b.year_profit ≠ NumField.bad ∧
  b.all_profit ≠ NumField.bad

/-- The spec's description (§4.6) of the day adoption: adopt the stored day
totals and counters only if the stored date equals today. -/
def dayAdoption (now : PyDateTime) (b : Blob) (st : CoordState) : CoordState :=
  match b.today_date with
  | some (some d) =>
    if d = now.day then
      { st with today_date := some d,
                today_profit := (readField 0 b.today_profit).getD 0,
                up_count := (readField 0 b.up_count).getD 0,
                down_count := (readField 0 b.down_count).getD 0 }
    else st
  | _ => st

/-- The spec's description of the week adoption. -/
def weekAdoption (cal : Calendar) (now : PyDateTime) (b : Blob)
    (st : CoordState) : CoordState :=
  match b.week_key with
  | some wk =>
    if wk = cal.isoWeekOf now.day then
      { st with week_key := some wk,
                week_profit := (readField 0 b.week_profit).getD 0 }
    else st
  | _ => st

/-- The spec's description of the month adoption. -/
def monthAdoption (cal : Calendar) (now : PyDateTime) (b : Blob)
    (st : CoordState) : CoordState :=
  match b.month_key with
  | some mk =>
    if mk = (cal.yearOf now.day, cal.monthOf now.day) then
      { st with month_key := some mk,
                month_profit := (readField 0 b.month_profit).getD 0 }
    else st
  | _ => st

/-- The spec's description of the year adoption. -/
def yearAdoption (cal : Calendar) (now : PyDateTime) (b : Blob)
    (st : CoordState) : CoordState :=
  match b.year_key with
  | some yk =>
    if yk = cal.yearOf now.day then
      { st with year_key := some yk,
                year_profit := (readField 0 b.year_profit).getD 0 }
    else st
  | _ => st

/-- The spec's description of the unconditional all-time adoption. -/
def allAdoption (b : Blob) (st : CoordState) : CoordState :=
  { st with all_profit := (readField 0 b.all_profit).getD 0 }

/-- The day block succeeds and matches the spec's adoption rule on blobs
whose day fields parse. -/
theorem loadDay_wf (now : PyDateTime) (b : Blob) (st : CoordState)
    (h1 : b.today_profit ≠ NumField.bad) (h2 : b.up_count ≠ NumField.bad)
    (h3 : b.down_count ≠ NumField.bad) :
    loadDay now b st = Except.ok (dayAdoption now b st) := by
  cases htd : b.today_date with
  | none => simp [loadDay, dayAdoption, htd]
  | some od =>
    cases od with
    | none => simp [loadDay, dayAdoption, htd]
    | some d =>
      by_cases hd : d = now.day
      · cases e1 : b.today_profit <;> cases e2 : b.up_count <;>
          cases e3 : b.down_count <;>
          simp_all [loadDay, dayAdoption, readField]
      · simp [loadDay, dayAdoption, htd, hd]

/-- The week block succeeds and matches the spec's adoption rule. -/
theorem loadWeek_wf (cal : Calendar) (now : PyDateTime) (b : Blob)
    (st : CoordState) (h : b.week_profit ≠ NumField.bad) :
    loadWeek cal now b st = Except.ok (weekAdoption cal now b st) := by
  cases hk : b.week_key with
  | none => simp [loadWeek, weekAdoption, hk]
  | some wk =>
    by_cases hw : wk = cal.isoWeekOf now.day
    · cases e : b.week_profit <;> simp_all [loadWeek, weekAdoption, readField]
    · simp [loadWeek, weekAdoption, hk, hw]

/-- The month block succeeds and matches the spec's adoption rule. -/
theorem loadMonth_wf (cal : Calendar) (now : PyDateTime) (b : Blob)
    (st : CoordState) (h : b.month_profit ≠ NumField.bad) :
    loadMonth cal now b st = Except.ok (monthAdoption cal now b st) := by
  cases hk : b.month_key with
  | none => simp [loadMonth, monthAdoption, hk]
  | some mk =>
    by_cases hm : mk = (cal.yearOf now.day, cal.monthOf now.day)
    · cases e : b.month_profit <;> simp_all [loadMonth, monthAdoption, readField]
    · simp [loadMonth, monthAdoption, hk, hm]

/-- The year block succeeds and matches the spec's adoption rule. -/
theorem loadYear_wf (cal : Calendar) (now : PyDateTime) (b : Blob)
    (st : CoordState) (h : b.year_profit ≠ NumField.bad) :
    loadYear cal now b st = Except.ok (yearAdoption cal now b st) := by
  cases hk : b.year_key with
  | none => simp [loadYear, yearAdoption, hk]
  | some yk =>
    by_cases hy : yk = cal.yearOf now.day
    · cases e : b.year_profit <;> simp_all [loadYear, yearAdoption, readField]
    · simp [loadYear, yearAdoption, hk, hy]

/-- Claim C4, amended: when no field of the stored blob makes
deserialization raise, startup restore behaves exactly as specified — each
keyed period is adopted precisely when its stored key matches the current
one, and the all-time total is adopted unconditionally.  (When a field does
raise, the error is swallowed but every adoption made before the raising
point survives, so the state need not equal the nothing-stored state; see
the counterexample.) -/
theorem C4_load_restore_amended (cal : Calendar) (now : PyDateTime) (b : Blob)
    (st : CoordState) (h : blobWellFormed b) :
    async_load_state cal now (some b) st =
      allAdoption b (yearAdoption cal now b (monthAdoption cal now b
        (weekAdoption cal now b (dayAdoption now b st)))) := by
  obtain ⟨h1, h2, h3, h4, h5, h6, h7⟩ := h
  unfold async_load_state
  dsimp only [Option.getD]
  rw [loadDay_wf now b st h1 h2 h3]
  simp only [bind, Except.bind]
  rw [loadWeek_wf cal now b _ h4]
  simp only []
  rw [loadMonth_wf cal now b _ h5]
  simp only []
  rw [loadYear_wf cal now b _ h6]
  cases e : b.all_profit <;> simp_all [allAdoption, readField]

/-- A fully well-formed blob matching `d0`'s day under `cal0`. -/
def blobW : Blob :=
  { today_date := some (some 739000), today_profit := NumField.val 3,
    up_count := NumField.val 2, down_count := NumField.val 1,
    week_key := some (739000, 1), week_profit := NumField.val 4,
    month_key := some (1, 1), month_profit := NumField.val 5,
    year_key := some 739000, year_profit := NumField.val 6,
    all_profit := NumField.val 7 }

/-- Witness for the amended C4 on a concrete well-formed blob. -/
theorem C4_load_restore_amended_witness :
    blobWellFormed blobW ∧
    async_load_state cal0 d0 (some blobW) initState =
      allAdoption blobW (yearAdoption cal0 d0 blobW (monthAdoption cal0 d0
        blobW (weekAdoption cal0 d0 blobW (dayAdoption d0 blobW initState)))) ∧
    (async_load_state cal0 d0 (some blobW) initState).all_profit = 7 :=
  ⟨by refine ⟨?_, ?_, ?_, ?_, ?_, ?_, ?_⟩ <;> simp [blobW],
   C4_load_restore_amended cal0 d0 blobW initState
     (by refine ⟨?_, ?_, ?_, ?_, ?_, ?_, ?_⟩ <;> simp [blobW]),
   rfl⟩

/-- Whatever the prices, finalizing pushes the active slot (with only its
`profit` field possibly updated) onto the head of the recent deque and
clears the active slot. -/
theorem finalize_push (cfg : Config) (st : CoordState) (s : Slot)
    (h : st.active_slot = some s) :
    (finalize_active_slot cfg st).active_slot = Option.none ∧
    (finalize_active_slot cfg st).recent_slots.head?.map Slot.cancelled =
      some s.cancelled ∧
    (finalize_active_slot cfg st).recent_slots.head?.map Slot.start =
      some s.start ∧
    (finalize_active_slot cfg st).recent_slots.head?.map Slot.stop =
      some s.stop := by
  rcases hn : s.nordpool_price with _ | np <;>
    rcases hm : s.mffr_price with _ | mp <;>
      by_cases he : 0 < s.energy_kwh <;>
        by_cases hu : s.signal = "UP" <;>
          by_cases hd : s.signal = "DOWN" <;>
            simp [finalize_active_slot, h, hn, hm, he, hu, hd, List.head?]

/-- On an `IDLE` signal with an open slot, the slot machine is exactly
"mark cancelled, finalize, zero the idle accumulator". -/
theorem slotLogic_idle (cfg : Config) (c m b : Option ℚ) (p dt : ℚ)
    (now : PyDateTime) (st : CoordState) (s : Slot)
    (hact : st.active_slot = some s) :
    slotLogic cfg "IDLE" c m b p dt now st =
      { finalize_active_slot cfg
          { st with active_slot := some { s with cancelled := true } } with
        active_idle_s := 0 } := by
  have hidle : ¬ (("IDLE":String) = "UP" ∨ ("IDLE":String) = "DOWN") := by
    decide
  have hfin := finalize_push cfg
    { st with active_slot := some { s with cancelled := true } }
    { s with cancelled := true } rfl
  simp only [slotLogic, if_neg hidle, idleStep, hact]
  unfold endStep
  split
  · rename_i s2 heq
    simp [hfin.1] at heq
  · rfl

/-- Claim C9: a tick whose classified signal is `IDLE` while a slot is open
marks that slot cancelled and finalizes it in the same tick; and
cancellation is financially neutral — `_finalize_active_slot` never reads
the `cancelled` flag, so a cancelled slot with both prices and positive
energy gets its profit computed and added to the totals exactly as a
non-cancelled one. -/
theorem C9_idle_cancel_finalize :
    (∀ (cfg : Config) (c m b : Option ℚ) (p dt : ℚ) (now : PyDateTime)
        (st : CoordState) (s : Slot), st.active_slot = some s →
      (slotLogic cfg "IDLE" c m b p dt now st).active_slot = Option.none ∧
      (slotLogic cfg "IDLE" c m b p dt now
          st).recent_slots.head?.map Slot.cancelled = some true ∧
      (slotLogic cfg "IDLE" c m b p dt now st).active_idle_s = 0) ∧
    (∀ (cfg : Config) (st : CoordState) (s : Slot),
      ((finalize_active_slot cfg
          { st with active_slot := some { s with cancelled := true } }).today_profit =
        (finalize_active_slot cfg
          { st with active_slot := some s }).today_profit) ∧
      ((finalize_active_slot cfg
          { st with active_slot := some { s with cancelled := true } }).week_profit =
        (finalize_active_slot cfg
          { st with active_slot := some s }).week_profit) ∧
      ((finalize_active_slot cfg
          { st with active_slot := some { s with cancelled := true } }).month_profit =
        (finalize_active_slot cfg
          { st with active_slot := some s }).month_profit) ∧
      ((finalize_active_slot cfg
          { st with active_slot := some { s with cancelled := true } }).year_profit =
        (finalize_active_slot cfg
          { st with active_slot := some s }).year_profit) ∧
      ((finalize_active_slot cfg
          { st with active_slot := some { s with cancelled := true } }).all_profit =
        (finalize_active_slot cfg
          { st with active_slot := some s }).all_profit) ∧
      ((finalize_active_slot cfg
          { st with active_slot := some { s with cancelled := true } }).recent_slots.map Slot.profit =
        (finalize_active_slot cfg
          { st with active_slot := some s }).recent_slots.map Slot.profit)) ∧
    (∀ (cfg : Config) (st : CoordState) (s : Slot) (np mp : ℚ),
      s.nordpool_price = some np → s.mffr_price = some mp →
      0 < s.energy_kwh →
      (finalize_active_slot cfg
          { st with active_slot := some s }).all_profit =
        st.all_profit +
          profit_formula (cfg.fusebox_fee_pct / 100) s.signal mp np
            s.energy_kwh ∧
      (finalize_active_slot cfg
          { st with active_slot := some s }).recent_slots.head? =
        some { s with profit := some (profit_formula (cfg.fusebox_fee_pct / 100) s.signal mp np s.energy_kwh) }) := by
  refine ⟨?_, ?_, ?_⟩
  · intro cfg c m b p dt now st s hact
    have hfin := finalize_push cfg
      { st with active_slot := some { s with cancelled := true } }
      { s with cancelled := true } rfl
    rw [slotLogic_idle cfg c m b p dt now st s hact]
    exact ⟨by simpa using hfin.1, by simpa using hfin.2.1, rfl⟩
  · intro cfg st s
    rcases hn : s.nordpool_price with _ | np <;>
      rcases hm : s.mffr_price with _ | mp <;>
        by_cases he : 0 < s.energy_kwh <;>
          by_cases hu : s.signal = "UP" <;>
            by_cases hd : s.signal = "DOWN" <;>
              simp [finalize_active_slot, hn, hm, he, hu, hd]
  · intro cfg st s np mp hn hm he
    by_cases hu : s.signal = "UP" <;> by_cases hd : s.signal = "DOWN" <;>
      simp [finalize_active_slot, profit_formula, hn, hm, he, hu, hd,
        List.head?]

/-- Witness for C9: an `IDLE` tick against the scenario slot `slotW` clears
and cancels it, and finalizing the cancelled scenario slot still yields the
0.004 profit. -/
theorem C9_idle_cancel_finalize_witness :
    stW.active_slot = some slotW ∧
    (slotLogic cfgHa "IDLE" Option.none Option.none Option.none 1000 10
        ⟨739000, 10, 5, 0, 0⟩ stW).active_slot = Option.none ∧
    (slotLogic cfgHa "IDLE" Option.none Option.none Option.none 1000 10
        ⟨739000, 10, 5, 0, 0⟩ stW).recent_slots.head?.map Slot.cancelled =
      some true := by
  have h := C9_idle_cancel_finalize.1 cfgHa Option.none Option.none
    Option.none 1000 10 ⟨739000, 10, 5, 0, 0⟩ stW slotW rfl
  exact ⟨rfl, h.1, h.2.1⟩

/-- The extension tick of the slot machine, written out: accumulate energy
and duration, refresh prices and baseline, then run the early-cancellation
heuristic and the end-boundary check. -/
theorem slotLogic_extend (cfg : Config) (sig : String) (c m b : Option ℚ)
    (p dt : ℚ) (now : PyDateTime) (st : CoordState) (s : Slot)
    (hact : st.active_slot = some s) (hsig : s.signal = sig)
    (hud : sig = "UP" ∨ sig = "DOWN") :
    slotLogic cfg sig c m b p dt now st =
      (let s2 : Slot :=
        { s with
            nordpool_price := c, mffr_price := m,
            baseline_w := (match s.baseline_w with
              | some x => some x
              | Option.none => b),
            energy_kwh := s.energy_kwh + p * dt / 3600000,
            duration_s := s.duration_s + dt }
       let idle := if p ≤ 100 then st.active_idle_s + dt else 0
       if 60 ≤ idle then
         { finalize_active_slot cfg { st with active_slot := some { s2 with cancelled := true } } with
             active_idle_s := 0 }
       else
         (let st2 : CoordState :=
            { st with active_slot := some s2, active_idle_s := idle }
          if now.geB s2.stop then
            { finalize_active_slot cfg st2 with active_idle_s := 0 }
          else st2)) := by
  have hne : ¬ (s.signal ≠ sig) := by simp [hsig]
  simp only [slotLogic, if_pos hud, openStep, reopenStep, extendStep, hact,
    if_neg hne, idleHeuristic, decide_eq_true_eq]
  by_cases htrip : 60 ≤ (if p ≤ 100 then st.active_idle_s + dt else 0)
  · simp only [if_pos htrip]
    have hfin := finalize_push cfg { st with active_slot := some { s with nordpool_price := c, mffr_price := m, baseline_w := (match s.baseline_w with | some x => some x | Option.none => b), energy_kwh := s.energy_kwh + p * dt / 3600000, duration_s := s.duration_s + dt, cancelled := true } } { s with nordpool_price := c, mffr_price := m, baseline_w := (match s.baseline_w with | some x => some x | Option.none => b), energy_kwh := s.energy_kwh + p * dt / 3600000, duration_s := s.duration_s + dt, cancelled := true } rfl
    unfold endStep
    split
    · rename_i s3 heq
      simp [hfin.1] at heq
    · rfl
  · simp only [if_neg htrip]
    unfold endStep
    rfl

/-- Claim C5: while a slot is open (matching signal, before the slot's end),
the idle accumulator grows by the tick's elapsed seconds whenever the market
power is at or below 100 W, resets to zero on any tick above 100 W, and the
moment the accumulated idle time reaches 60 s the slot is marked cancelled
and finalized on that very tick with the accumulator reset — cancellation is
keyed on accumulated idle time, not on wall-clock time since slot start.
(The Python `try` guard around the heuristic protects against internal
exceptions; the embedded arithmetic is total, so that guard is vacuous
here.) -/
theorem C5_early_cancellation (cfg : Config) (sig : String) (c m b : Option ℚ)
    (p dt : ℚ) (now : PyDateTime) (st : CoordState) (s : Slot)
    (hact : st.active_slot = some s) (hsig : s.signal = sig)
    (hud : sig = "UP" ∨ sig = "DOWN") (hend : now.geB s.stop = false) :
    (p ≤ 100 → st.active_idle_s + dt < 60 →
      (slotLogic cfg sig c m b p dt now st).active_idle_s =
        st.active_idle_s + dt ∧
      (slotLogic cfg sig c m b p dt now st).active_slot.map Slot.start =
        some s.start) ∧
    (100 < p →
      (slotLogic cfg sig c m b p dt now st).active_idle_s = 0 ∧
      (slotLogic cfg sig c m b p dt now st).active_slot.map Slot.start =
        some s.start) ∧
    (p ≤ 100 → 60 ≤ st.active_idle_s + dt →
      (slotLogic cfg sig c m b p dt now st).active_slot = Option.none ∧
      (slotLogic cfg sig c m b p dt now st).active_idle_s = 0 ∧
      (slotLogic cfg sig c m b p dt now
          st).recent_slots.head?.map Slot.cancelled = some true) := by
  rw [slotLogic_extend cfg sig c m b p dt now st s hact hsig hud]
  refine ⟨?_, ?_, ?_⟩
  · intro hp hlt
    simp [if_pos hp, not_le.mpr hlt, hend]
  · intro hp
    have h0 : ¬ ((60:ℚ) ≤ 0) := by norm_num
    simp [if_neg (not_le.mpr hp), h0, hend]
  · intro hp hge
    have hfin := finalize_push cfg { st with active_slot := some { s with nordpool_price := c, mffr_price := m, baseline_w := (match s.baseline_w with | some x => some x | Option.none => b), energy_kwh := s.energy_kwh + p * dt / 3600000, duration_s := s.duration_s + dt, cancelled := true } } { s with nordpool_price := c, mffr_price := m, baseline_w := (match s.baseline_w with | some x => some x | Option.none => b), energy_kwh := s.energy_kwh + p * dt / 3600000, duration_s := s.duration_s + dt, cancelled := true } rfl
    simp only [if_pos hp, if_pos hge]
    exact ⟨by simpa using hfin.1, by trivial, by simpa using hfin.2.1⟩

/-- Witness for C5: a slot stuck at 20 W with 50 s already accumulated and a
10 s tick reaches the 60 s grace period and is force-cancelled on that same
tick (at 10:05, well before the slot's 10:15 end). -/
theorem C5_early_cancellation_witness :
    (20 : ℚ) ≤ 100 ∧
    (60 : ℚ) ≤ 50 + 10 ∧
    (slotLogic cfgHa "UP" Option.none Option.none Option.none 20 10
        ⟨739000, 10, 5, 0, 0⟩
        { stW with active_idle_s := 50 }).active_slot = Option.none ∧
    (slotLogic cfgHa "UP" Option.none Option.none Option.none 20 10
        ⟨739000, 10, 5, 0, 0⟩
        { stW with active_idle_s := 50 }).active_idle_s = 0 ∧
    (slotLogic cfgHa "UP" Option.none Option.none Option.none 20 10
        ⟨739000, 10, 5, 0, 0⟩
        { stW with active_idle_s := 50 }).recent_slots.head?.map
        Slot.cancelled = some true := by
  have h := (C5_early_cancellation cfgHa "UP" Option.none Option.none
    Option.none 20 10 ⟨739000, 10, 5, 0, 0⟩
    { stW with active_idle_s := 50 } slotW rfl rfl (Or.inl rfl)
    (by decide)).2.2 (by norm_num) (by norm_num)
  exact ⟨by norm_num, by norm_num, h.1, h.2.1, h.2.2⟩

/-- All five running totals of `b` exceed those of `a` by one common
additive delta (the profits credited between the two states). -/
def TotalsShifted (a b : CoordState) : Prop :=
  ∃ δ : ℚ, b.today_profit = a.today_profit + δ ∧
    b.week_profit = a.week_profit + δ ∧
    b.month_profit = a.month_profit + δ ∧
    b.year_profit = a.year_profit + δ ∧
    b.all_profit = a.all_profit + δ

theorem totalsShifted_refl (a : CoordState) : TotalsShifted a a :=
  ⟨0, by simp⟩

theorem totalsShifted_trans {a b c : CoordState} (h1 : TotalsShifted a b)
    (h2 : TotalsShifted b c) : TotalsShifted a c := by
  obtain ⟨x, hx1, hx2, hx3, hx4, hx5⟩ := h1
  obtain ⟨y, hy1, hy2, hy3, hy4, hy5⟩ := h2
  refine ⟨x + y, ?_, ?_, ?_, ?_, ?_⟩ <;>
    simp [hx1, hx2, hx3, hx4, hx5, hy1, hy2, hy3, hy4, hy5, add_assoc]

/-- Finalizing shifts all five totals by one common delta (the profit, when
one is credited, else zero). -/
theorem finalize_shifted (cfg : Config) (st : CoordState) :
    TotalsShifted st (finalize_active_slot cfg st) := by
  rcases hact : st.active_slot with _ | s
  · unfold finalize_active_slot
    rw [hact]
    exact totalsShifted_refl st
  · rcases hn : s.nordpool_price with _ | np
    · refine ⟨0, ?_, ?_, ?_, ?_, ?_⟩ <;>
        (simp only [finalize_active_slot, hact, hn]; split_ifs <;> simp)
    · rcases hm : s.mffr_price with _ | mp
      · refine ⟨0, ?_, ?_, ?_, ?_, ?_⟩ <;>
          (simp only [finalize_active_slot, hact, hn, hm]; split_ifs <;> simp)
      · by_cases he : 0 < s.energy_kwh
        · refine ⟨profit_formula (cfg.fusebox_fee_pct / 100) s.signal mp np
            s.energy_kwh, ?_, ?_, ?_, ?_, ?_⟩ <;>
            (simp only [finalize_active_slot, hact, hn, hm, if_pos he];
             split_ifs <;> simp)
        · refine ⟨0, ?_, ?_, ?_, ?_, ?_⟩ <;>
            (simp only [finalize_active_slot, hact, hn, hm, if_neg he];
             split_ifs <;> simp)

/-- The rate-limited price refresh never touches the totals. -/
theorem update_prices_shifted (now : PyDateTime)
    (resp : Option (List FeedItem)) (st : CoordState) :
    TotalsShifted st (update_prices_if_needed now resp st) := by
  refine ⟨0, ?_, ?_, ?_, ?_, ?_⟩ <;>
    (unfold update_prices_if_needed;
     simp [apply_ite CoordState.today_profit,
       apply_ite CoordState.week_profit, apply_ite CoordState.month_profit,
       apply_ite CoordState.year_profit, apply_ite CoordState.all_profit])

/-- The baseline estimator never touches the totals. -/
theorem update_baseline_shifted (w : ℚ) (sig : String) (now : PyDateTime)
    (st : CoordState) :
    TotalsShifted st (update_baseline w sig now st) := by
  refine ⟨0, ?_, ?_, ?_, ?_, ?_⟩ <;>
    (unfold update_baseline; rcases hacts : st.active_slot with _ | s <;>
      split_ifs <;>
        simp [hacts, apply_ite CoordState.today_profit,
          apply_ite CoordState.week_profit, apply_ite CoordState.month_profit,
          apply_ite CoordState.year_profit, apply_ite CoordState.all_profit])

/-- Updating the idle accumulator after a finalize keeps the common shift. -/
theorem shifted_fin_update (cfg : Config) (a X : CoordState) (y : ℚ)
    (h : TotalsShifted a X) :
    TotalsShifted a { finalize_active_slot cfg X with active_idle_s := y } := by
  refine totalsShifted_trans h ?_
  obtain ⟨δ, h5⟩ := finalize_shifted cfg X
  exact ⟨δ, by simpa using h5⟩

/-- Replacing the active slot after a finalize keeps the common shift. -/
theorem shifted_fin_update2 (cfg : Config) (a X : CoordState)
    (v : Option Slot) (y : ℚ) (h : TotalsShifted a X) :
    TotalsShifted a { finalize_active_slot cfg X with active_slot := v, active_idle_s := y } := by
  refine totalsShifted_trans h ?_
  obtain ⟨δ, h5⟩ := finalize_shifted cfg X
  exact ⟨δ, by simpa using h5⟩

/-- Opening a slot never touches the totals. -/
theorem openStep_shifted (sig : String) (now : PyDateTime) (st : CoordState) :
    TotalsShifted st (openStep sig now st) := by
  unfold openStep
  split
  · exact ⟨0, by simp⟩
  · exact totalsShifted_refl st

/-- The opposite-signal reopen shifts the totals by the finalize's delta. -/
theorem reopenStep_shifted (cfg : Config) (sig : String) (now : PyDateTime)
    (st : CoordState) : TotalsShifted st (reopenStep cfg sig now st) := by
  unfold reopenStep
  split
  · split_ifs with hs
    · refine shifted_fin_update2 cfg st st ?_ 0 (totalsShifted_refl st)
    · exact totalsShifted_refl st
  · exact totalsShifted_refl st

/-- Extending (with the cancellation heuristic) shifts the totals by the
finalize's delta when the heuristic trips, else not at all. -/
theorem extendStep_shifted (cfg : Config) (c m b : Option ℚ) (p dt : ℚ)
    (st : CoordState) : TotalsShifted st (extendStep cfg c m b p dt st) := by
  unfold extendStep
  split
  · simp only [idleHeuristic]
    split_ifs with h1 h2 h3
    · exact shifted_fin_update cfg st _ 0 ⟨0, by simp⟩
    · exact ⟨0, by simp⟩
    · exact absurd h3 (by norm_num [decide_eq_true_eq])
    · exact ⟨0, by simp⟩
  · exact totalsShifted_refl st

/-- The `IDLE` cancel-and-finalize shifts the totals by the finalize's
delta. -/
theorem idleStep_shifted (cfg : Config) (st : CoordState) :
    TotalsShifted st (idleStep cfg st) := by
  unfold idleStep
  split
  · exact shifted_fin_update cfg st _ 0 ⟨0, by simp⟩
  · exact totalsShifted_refl st

/-- The end-boundary finalize shifts the totals by the finalize's delta. -/
theorem endStep_shifted (cfg : Config) (now : PyDateTime) (st : CoordState) :
    TotalsShifted st (endStep cfg now st) := by
  unfold endStep
  split
  · split_ifs with hg
    · exact shifted_fin_update cfg st st 0 (totalsShifted_refl st)
    · exact totalsShifted_refl st
  · exact totalsShifted_refl st

/-- The whole slot state machine shifts all five totals by one common
delta: only `_finalize_active_slot` ever touches them. -/
theorem slotLogic_shifted (cfg : Config) (sig : String) (c m b : Option ℚ)
    (p dt : ℚ) (now : PyDateTime) (st : CoordState) :
    TotalsShifted st (slotLogic cfg sig c m b p dt now st) := by
  unfold slotLogic
  split_ifs with hud
  · exact totalsShifted_trans
      (totalsShifted_trans
        (totalsShifted_trans (openStep_shifted sig now st)
          (reopenStep_shifted cfg sig now _))
        (extendStep_shifted cfg c m b p dt _))
      (endStep_shifted cfg now _)
  · exact totalsShifted_trans (idleStep_shifted cfg st)
      (endStep_shifted cfg now _)

/-- One backfill step shifts the totals by a common delta. -/
theorem backfillStep_shifted (cfg : Config) (cache : PriceCache)
    (acc : CoordState) (s : Slot) :
    TotalsShifted acc (backfillStep cfg cache acc s) := by
  unfold backfillStep
  rcases h : backfillSlot cfg cache s with ⟨s2, _ | p⟩
  · exact ⟨0, by simp⟩
  · exact ⟨p, by simp⟩

/-- The whole backfill fold shifts the totals by a common delta. -/
theorem backfillFold_shifted (cfg : Config) (cache : PriceCache) :
    ∀ (l : List Slot) (acc : CoordState),
      TotalsShifted acc (l.foldl (backfillStep cfg cache) acc) := by
  intro l
  induction l with
  | nil => intro acc; exact totalsShifted_refl acc
  | cons s t ih =>
    intro acc
    exact totalsShifted_trans (backfillStep_shifted cfg cache acc s) (ih _)

/-- The backfill pass shifts the totals by a common delta. -/
theorem backfillPass_shifted (cfg : Config) (st : CoordState) :
    TotalsShifted st (backfillPass cfg st) := by
  unfold backfillPass
  exact totalsShifted_trans ⟨0, by simp⟩
    (backfillFold_shifted cfg st.price_cache st.recent_slots _)

/-- After the period rollover, everything else a tick does moves the five
totals together: slot finalization and backfill add one common delta to all
of them, and no later stage can zero any single total. -/
theorem tick_shifted (cfg : Config) (cal : Calendar) (inp : TickInput)
    (st : CoordState) :
    TotalsShifted (finalize_previous_day cal inp.now st)
      (tick cfg cal inp st) := by
  unfold tick
  refine totalsShifted_trans
    (totalsShifted_trans
      (totalsShifted_trans
        (totalsShifted_trans (update_prices_shifted inp.now inp.response _) ?_)
        (update_baseline_shifted _ _ _ _))
      (slotLogic_shifted _ _ _ _ _ _ _ _ _))
    (backfillPass_shifted _ _)
  exact ⟨0, by simp⟩

/-- Field-by-field characterization of the day rollover paragraph. -/
theorem dayRoll_spec (now : PyDateTime) (st : CoordState) :
    (dayRoll now st).all_profit = st.all_profit ∧
    (dayRoll now st).today_profit =
      (match st.today_date with
        | some d => if now.day ≠ d then 0 else st.today_profit
        | Option.none => st.today_profit) ∧
    (dayRoll now st).up_count =
      (match st.today_date with
        | some d => if now.day ≠ d then 0 else st.up_count
        | Option.none => st.up_count) ∧
    (dayRoll now st).down_count =
      (match st.today_date with
        | some d => if now.day ≠ d then 0 else st.down_count
        | Option.none => st.down_count) ∧
    (dayRoll now st).today_date = some now.day ∧
    (dayRoll now st).week_profit = st.week_profit ∧
    (dayRoll now st).week_key = st.week_key ∧
    (dayRoll now st).month_profit = st.month_profit ∧
    (dayRoll now st).month_key = st.month_key ∧
    (dayRoll now st).year_profit = st.year_profit ∧
    (dayRoll now st).year_key = st.year_key := by
  unfold dayRoll
  rcases h : st.today_date with _ | d
  · simp [h]
  · by_cases hd : now.day ≠ d
    · simp [h, hd]
    · simp [h, hd, (not_ne_iff.mp hd).symm]

/-- Field-by-field characterization of the week rollover paragraph. -/
theorem weekRoll_spec (cal : Calendar) (now : PyDateTime) (st : CoordState) :
    (weekRoll cal now st).all_profit = st.all_profit ∧
    (weekRoll cal now st).today_profit = st.today_profit ∧
    (weekRoll cal now st).up_count = st.up_count ∧
    (weekRoll cal now st).down_count = st.down_count ∧
    (weekRoll cal now st).today_date = st.today_date ∧
    (weekRoll cal now st).week_profit =
      (match st.week_key with
        | some k => if k ≠ cal.isoWeekOf now.day then 0 else st.week_profit
        | Option.none => st.week_profit) ∧
    (weekRoll cal now st).week_key = some (cal.isoWeekOf now.day) ∧
    (weekRoll cal now st).month_profit = st.month_profit ∧
    (weekRoll cal now st).month_key = st.month_key ∧
    (weekRoll cal now st).year_profit = st.year_profit ∧
    (weekRoll cal now st).year_key = st.year_key := by
  unfold weekRoll
  rcases h : st.week_key with _ | k
  · simp [h]
  · by_cases hk : k ≠ cal.isoWeekOf now.day
    · simp [h, hk]
    · simp [h, hk, (not_ne_iff.mp hk).symm]

/-- Field-by-field characterization of the month rollover paragraph. -/
theorem monthRoll_spec (cal : Calendar) (now : PyDateTime) (st : CoordState) :
    (monthRoll cal now st).all_profit = st.all_profit ∧
    (monthRoll cal now st).today_profit = st.today_profit ∧
    (monthRoll cal now st).up_count = st.up_count ∧
    (monthRoll cal now st).down_count = st.down_count ∧
    (monthRoll cal now st).today_date = st.today_date ∧
    (monthRoll cal now st).week_profit = st.week_profit ∧
    (monthRoll cal now st).week_key = st.week_key ∧
    (monthRoll cal now st).month_profit =
      (match st.month_key with
        | some k => if k ≠ (cal.yearOf now.day, cal.monthOf now.day) then 0
            else st.month_profit
        | Option.none => st.month_profit) ∧
    (monthRoll cal now st).month_key =
      some (cal.yearOf now.day, cal.monthOf now.day) ∧
    (monthRoll cal now st).year_profit = st.year_profit ∧
    (monthRoll cal now st).year_key = st.year_key := by
  unfold monthRoll
  rcases h : st.month_key with _ | k
  · simp [h]
  · by_cases hk : k ≠ (cal.yearOf now.day, cal.monthOf now.day)
    · simp [h, hk]
    · simp [h, hk, (not_ne_iff.mp hk).symm]

/-- Field-by-field characterization of the year rollover paragraph. -/
theorem yearRoll_spec (cal : Calendar) (now : PyDateTime) (st : CoordState) :
    (yearRoll cal now st).all_profit = st.all_profit ∧
    (yearRoll cal now st).today_profit = st.today_profit ∧
    (yearRoll cal now st).up_count = st.up_count ∧
    (yearRoll cal now st).down_count = st.down_count ∧
    (yearRoll cal now st).today_date = st.today_date ∧
    (yearRoll cal now st).week_profit = st.week_profit ∧
    (yearRoll cal now st).week_key = st.week_key ∧
    (yearRoll cal now st).month_profit = st.month_profit ∧
    (yearRoll cal now st).month_key = st.month_key ∧
    (yearRoll cal now st).year_profit =
      (match st.year_key with
        | some k => if k ≠ cal.yearOf now.day then 0 else st.year_profit
        | Option.none => st.year_profit) ∧
    (yearRoll cal now st).year_key = some (cal.yearOf now.day) := by
  unfold yearRoll
  rcases h : st.year_key with _ | k
  · simp [h]
  · by_cases hk : k ≠ cal.yearOf now.day
    · simp [h, hk]
    · simp [h, hk, (not_ne_iff.mp hk).symm]

/-- Full characterization of the per-tick period rollover: the all-time
total is untouched; each keyed total is zeroed exactly when a stored key
exists and differs from the current one (the day reset also zeroing both
counters); and every key is (re-)adopted. -/
theorem finalize_previous_day_spec (cal : Calendar) (now : PyDateTime)
    (st : CoordState) :
    (finalize_previous_day cal now st).all_profit = st.all_profit ∧
    (finalize_previous_day cal now st).today_profit =
      (match st.today_date with
        | some d => if now.day ≠ d then 0 else st.today_profit
        | Option.none => st.today_profit) ∧
    (finalize_previous_day cal now st).up_count =
      (match st.today_date with
        | some d => if now.day ≠ d then 0 else st.up_count
        | Option.none => st.up_count) ∧
    (finalize_previous_day cal now st).down_count =
      (match st.today_date with
        | some d => if now.day ≠ d then 0 else st.down_count
        | Option.none => st.down_count) ∧
    (finalize_previous_day cal now st).today_date = some now.day ∧
    (finalize_previous_day cal now st).week_profit =
      (match st.week_key with
        | some k => if k ≠ cal.isoWeekOf now.day then 0 else st.week_profit
        | Option.none => st.week_profit) ∧
    (finalize_previous_day cal now st).week_key =
      some (cal.isoWeekOf now.day) ∧
    (finalize_previous_day cal now st).month_profit =
      (match st.month_key with
        | some k => if k ≠ (cal.yearOf now.day, cal.monthOf now.day) then 0
            else st.month_profit
        | Option.none => st.month_profit) ∧
    (finalize_previous_day cal now st).month_key =
      some (cal.yearOf now.day, cal.monthOf now.day) ∧
    (finalize_previous_day cal now st).year_profit =
      (match st.year_key with
        | some k => if k ≠ cal.yearOf now.day then 0 else st.year_profit
        | Option.none => st.year_profit) ∧
    (finalize_previous_day cal now st).year_key =
      some (cal.yearOf now.day) := by
  obtain ⟨dA, dTP, dUC, dDC, dTD, dWP, dWK, dMP, dMK, dYP, dYK⟩ :=
    dayRoll_spec now st
  obtain ⟨wA, wTP, wUC, wDC, wTD, wWP, wWK, wMP, wMK, wYP, wYK⟩ :=
    weekRoll_spec cal now (dayRoll now st)
  obtain ⟨mA, mTP, mUC, mDC, mTD, mWP, mWK, mMP, mMK, mYP, mYK⟩ :=
    monthRoll_spec cal now (weekRoll cal now (dayRoll now st))
  obtain ⟨yA, yTP, yUC, yDC, yTD, yWP, yWK, yMP, yMK, yYP, yYK⟩ :=
    yearRoll_spec cal now
      (monthRoll cal now (weekRoll cal now (dayRoll now st)))
  unfold finalize_previous_day
  refine ⟨?_, ?_, ?_, ?_, ?_, ?_, ?_, ?_, ?_, ?_, ?_⟩
  · rw [yA, mA, wA, dA]
  · rw [yTP, mTP, wTP, dTP]
  · rw [yUC, mUC, wUC, dUC]
  · rw [yDC, mDC, wDC, dDC]
  · rw [yTD, mTD, wTD, dTD]
  · rw [yWP, mWP, wWP, dWK, dWP]
  · rw [yWK, mWK, wWK]
  · rw [yMP, mMP, wMK, wMP, dMK, dMP]
  · rw [yMK, mMK]
  · rw [yYP, mYK, mYP, wYK, wYP, dYK, dYP]
  · rw [yYK]

/-- Claim C3: the rollover (which `tick` runs first, before any slot logic)
never touches the all-time total, zeroes each of day/week/month/year exactly
when its stored key exists and differs from the current key (the day reset
also zeroing both activation counters), and adopts the current keys; and
everything after the rollover in a tick moves all five totals together by
one common additive delta, so no other code path ever resets any of them —
in particular the all-time total is never reset. -/
theorem C3_period_reset_discipline (cfg : Config) (cal : Calendar)
    (inp : TickInput) (st : CoordState) :
    ((finalize_previous_day cal inp.now st).all_profit = st.all_profit ∧
     (finalize_previous_day cal inp.now st).today_profit =
       (match st.today_date with
         | some d => if inp.now.day ≠ d then 0 else st.today_profit
         | Option.none => st.today_profit) ∧
     (finalize_previous_day cal inp.now st).up_count =
       (match st.today_date with
         | some d => if inp.now.day ≠ d then 0 else st.up_count
         | Option.none => st.up_count) ∧
     (finalize_previous_day cal inp.now st).down_count =
       (match st.today_date with
         | some d => if inp.now.day ≠ d then 0 else st.down_count
         | Option.none => st.down_count) ∧
     (finalize_previous_day cal inp.now st).today_date = some inp.now.day ∧
     (finalize_previous_day cal inp.now st).week_profit =
       (match st.week_key with
         | some k => if k ≠ cal.isoWeekOf inp.now.day then 0
             else st.week_profit
         | Option.none => st.week_profit) ∧
     (finalize_previous_day cal inp.now st).week_key =
       some (cal.isoWeekOf inp.now.day) ∧
     (finalize_previous_day cal inp.now st).month_profit =
       (match st.month_key with
         | some k => if k ≠ (cal.yearOf inp.now.day, cal.monthOf inp.now.day)
             then 0 else st.month_profit
         | Option.none => st.month_profit) ∧
     (finalize_previous_day cal inp.now st).month_key =
       some (cal.yearOf inp.now.day, cal.monthOf inp.now.day) ∧
     (finalize_previous_day cal inp.now st).year_profit =
       (match st.year_key with
         | some k => if k ≠ cal.yearOf inp.now.day then 0 else st.year_profit
         | Option.none => st.year_profit) ∧
     (finalize_previous_day cal inp.now st).year_key =
       some (cal.yearOf inp.now.day)) ∧
    TotalsShifted (finalize_previous_day cal inp.now st)
      (tick cfg cal inp st) :=
  ⟨finalize_previous_day_spec cal inp.now st, tick_shifted cfg cal inp st⟩

/-- The microsecond decomposition built by `ofAbsMicro` recomposes to the
same count. -/
theorem toAbsMicro_ofAbsMicro (t : ℕ) :
    (PyDateTime.ofAbsMicro t).toAbsMicro = t := by
  unfold PyDateTime.ofAbsMicro PyDateTime.toAbsMicro
  simp only
  omega

/-- `timedelta` addition adds exactly on the microsecond axis. -/
theorem toAbsMicro_addMicro (d : PyDateTime) (k : ℕ) :
    (d.addMicro k).toAbsMicro = d.toAbsMicro + k := by
  unfold PyDateTime.addMicro
  rw [toAbsMicro_ofAbsMicro]

/-- After a step, either a fresh slot was created at `now`'s quarter
boundary or the previously open slot's boundaries are retained. -/
def SlotCreatedOrKept (now : PyDateTime) (before after : Option Slot) :
    Prop :=
  ∀ s2, after = some s2 →
    (s2.start = quarter_start now ∧
      s2.stop = (quarter_start now).addMicro 900000000) ∨
    (∃ s1, before = some s1 ∧ s2.start = s1.start ∧ s2.stop = s1.stop)

theorem sck_of_eq {now : PyDateTime} {b1 b2 : Option Slot} (h : b2 = b1) :
    SlotCreatedOrKept now b1 b2 := fun s2 hc =>
  Or.inr ⟨s2, h ▸ hc, rfl, rfl⟩

theorem sck_trans {now : PyDateTime} {a b c : Option Slot}
    (h1 : SlotCreatedOrKept now a b) (h2 : SlotCreatedOrKept now b c) :
    SlotCreatedOrKept now a c := by
  intro s2 hc
  rcases h2 s2 hc with hcr | ⟨s1, hb, e1, e2⟩
  · exact Or.inl hcr
  · rcases h1 s1 hb with hcr | ⟨s0, ha, f1, f2⟩
    · exact Or.inl ⟨e1.trans hcr.1, e2.trans hcr.2⟩
    · exact Or.inr ⟨s0, ha, e1.trans f1, e2.trans f2⟩

/-- Opening creates at the quarter boundary or keeps the open slot. -/
theorem openStep_sck (sig : String) (now : PyDateTime) (st : CoordState) :
    SlotCreatedOrKept now st.active_slot (openStep sig now st).active_slot := by
  unfold openStep
  split
  · intro s2 hc
    simp only [Option.some.injEq] at hc
    exact Or.inl ⟨by rw [← hc], by rw [← hc]⟩
  · exact sck_of_eq rfl

/-- Reopening creates at the quarter boundary or keeps the open slot. -/
theorem reopenStep_sck (cfg : Config) (sig : String) (now : PyDateTime)
    (st : CoordState) :
    SlotCreatedOrKept now st.active_slot
      (reopenStep cfg sig now st).active_slot := by
  unfold reopenStep
  split
  · split_ifs
    · intro s2 hc
      simp only [Option.some.injEq] at hc
      exact Or.inl ⟨by rw [← hc], by rw [← hc]⟩
    · exact sck_of_eq rfl
  · exact sck_of_eq rfl

/-- Extension never changes the open slot's boundaries. -/
theorem extendStep_sck (cfg : Config) (c m b : Option ℚ) (p dt : ℚ)
    (now : PyDateTime) (st : CoordState) :
    SlotCreatedOrKept now st.active_slot
      (extendStep cfg c m b p dt st).active_slot := by
  unfold extendStep
  split
  · rename_i s1 heq
    simp only [idleHeuristic]
    split_ifs with h1 h2 h3
    · intro s2 hc
      rw [show ∀ X : CoordState, ({ X with active_idle_s := 0 } : CoordState).active_slot = X.active_slot from fun X => rfl] at hc
      rcases (finalize_push cfg _ _ rfl).1.symm.trans hc with h
      exact absurd h (by simp)
    · intro s2 hc
      simp only [Option.some.injEq] at hc
      exact Or.inr ⟨s1, heq, by rw [← hc], by rw [← hc]⟩
    · exact absurd h3 (by norm_num [decide_eq_true_eq])
    · intro s2 hc
      simp only [Option.some.injEq] at hc
      exact Or.inr ⟨s1, heq, by rw [← hc], by rw [← hc]⟩
  · exact sck_of_eq rfl

/-- The `IDLE` cancel clears the slot (vacuously keeps boundaries). -/
theorem idleStep_sck (cfg : Config) (now : PyDateTime) (st : CoordState) :
    SlotCreatedOrKept now st.active_slot (idleStep cfg st).active_slot := by
  unfold idleStep
  split
  · intro s2 hc
    rw [show ∀ X : CoordState, ({ X with active_idle_s := 0 } : CoordState).active_slot = X.active_slot from fun X => rfl] at hc
    rcases (finalize_push cfg _ _ rfl).1.symm.trans hc with h
    exact absurd h (by simp)
  · exact sck_of_eq rfl

/-- The end-boundary check clears the slot or leaves it untouched. -/
theorem endStep_sck (cfg : Config) (now2 now : PyDateTime) (st : CoordState) :
    SlotCreatedOrKept now st.active_slot (endStep cfg now2 st).active_slot := by
  unfold endStep
  split
  · rename_i s1 heq
    split_ifs
    · intro s2 hc
      rw [show ∀ X : CoordState, ({ X with active_idle_s := 0 } : CoordState).active_slot = X.active_slot from fun X => rfl] at hc
      rcases (finalize_push cfg _ s1 heq).1.symm.trans hc with h
      exact absurd h (by simp)
    · exact sck_of_eq rfl
  · exact sck_of_eq rfl

/-- The whole slot machine creates at the boundary or keeps boundaries. -/
theorem slotLogic_sck (cfg : Config) (sig : String) (c m b : Option ℚ)
    (p dt : ℚ) (now : PyDateTime) (st : CoordState) :
    SlotCreatedOrKept now st.active_slot
      (slotLogic cfg sig c m b p dt now st).active_slot := by
  unfold slotLogic
  split_ifs with hud
  · exact sck_trans
      (sck_trans (sck_trans (openStep_sck sig now st)
          (reopenStep_sck cfg sig now _))
        (extendStep_sck cfg c m b p dt now _))
      (endStep_sck cfg now now _)
  · exact sck_trans (idleStep_sck cfg now st) (endStep_sck cfg now now _)

/-- The rollover paragraphs never touch the active slot. -/
theorem dayRoll_active (now : PyDateTime) (st : CoordState) :
    (dayRoll now st).active_slot = st.active_slot := by
  unfold dayRoll
  split
  · rfl
  · simp [apply_ite CoordState.active_slot]

theorem weekRoll_active (cal : Calendar) (now : PyDateTime) (st : CoordState) :
    (weekRoll cal now st).active_slot = st.active_slot := by
  unfold weekRoll
  split
  · rfl
  · simp [apply_ite CoordState.active_slot]

theorem monthRoll_active (cal : Calendar) (now : PyDateTime)
    (st : CoordState) :
    (monthRoll cal now st).active_slot = st.active_slot := by
  unfold monthRoll
  split
  · rfl
  · simp [apply_ite CoordState.active_slot]

theorem yearRoll_active (cal : Calendar) (now : PyDateTime) (st : CoordState) :
    (yearRoll cal now st).active_slot = st.active_slot := by
  unfold yearRoll
  split
  · rfl
  · simp [apply_ite CoordState.active_slot]

theorem finalize_previous_day_active (cal : Calendar) (now : PyDateTime)
    (st : CoordState) :
    (finalize_previous_day cal now st).active_slot = st.active_slot := by
  unfold finalize_previous_day
  rw [yearRoll_active, monthRoll_active, weekRoll_active, dayRoll_active]

/-- The price refresh never touches the active slot. -/
theorem update_prices_active (now : PyDateTime)
    (resp : Option (List FeedItem)) (st : CoordState) :
    (update_prices_if_needed now resp st).active_slot = st.active_slot := by
  simp [update_prices_if_needed, apply_ite CoordState.active_slot]

/-- The baseline estimator can attach a baseline to the open slot but never
changes its boundaries. -/
theorem update_baseline_sck (w : ℚ) (sig : String) (nb now : PyDateTime)
    (st : CoordState) :
    SlotCreatedOrKept now st.active_slot
      (update_baseline w sig nb st).active_slot := by
  unfold update_baseline
  split_ifs <;> try exact sck_of_eq rfl
  all_goals dsimp only
  all_goals split
  all_goals try exact sck_of_eq rfl
  all_goals rename_i s heq
  all_goals split_ifs
  all_goals try exact sck_of_eq rfl
  all_goals intro s2 hc
  all_goals simp only [Option.some.injEq] at hc
  all_goals exact Or.inr ⟨s, heq, by rw [← hc], by rw [← hc]⟩

/-- The backfill loop never touches the active slot. -/
theorem backfillFold_active (cfg : Config) (cache : PriceCache) :
    ∀ (l : List Slot) (acc : CoordState),
      (l.foldl (backfillStep cfg cache) acc).active_slot = acc.active_slot := by
  intro l
  induction l with
  | nil => intro acc; rfl
  | cons s t ih =>
    intro acc
    rw [List.foldl_cons, ih]
    rcases h : backfillSlot cfg cache s with ⟨s2, _ | pr⟩ <;>
      simp [backfillStep, h]

theorem backfillPass_active (cfg : Config) (st : CoordState) :
    (backfillPass cfg st).active_slot = st.active_slot := by
  unfold backfillPass
  rw [backfillFold_active]

/-- Over a whole tick, any open slot either was created this tick at the
current quarter boundary or retains its previous boundaries. -/
theorem tick_sck (cfg : Config) (cal : Calendar) (inp : TickInput)
    (st : CoordState) :
    SlotCreatedOrKept inp.now st.active_slot
      (tick cfg cal inp st).active_slot := by
  unfold tick
  refine sck_trans (sck_trans (sck_trans ?_
    (update_baseline_sck _ _ inp.now inp.now _))
    (slotLogic_sck cfg _ _ _ _ _ _ inp.now _))
    (sck_of_eq (backfillPass_active cfg _))
  exact sck_of_eq
    ((update_prices_active inp.now inp.response _).trans
      (finalize_previous_day_active cal inp.now st))

/-- Claim C8: `_quarter_start` of any valid time lands on :00/:15/:30/:45
with zero seconds and microseconds; the slot end is its start plus exactly
15 minutes on the microsecond axis; and over any tick, an open slot either
was created this very tick at the current quarter boundary (covering plain,
mid-quarter backup, and opposite-signal reopenings, which all construct the
slot this way) or carries its previous `start`/`stop` unchanged. -/
theorem C8_slot_boundaries :
    (∀ ts : PyDateTime, ts.minute < 60 →
      ((quarter_start ts).minute = 0 ∨ (quarter_start ts).minute = 15 ∨
        (quarter_start ts).minute = 30 ∨ (quarter_start ts).minute = 45) ∧
      (quarter_start ts).second = 0 ∧ (quarter_start ts).micro = 0) ∧
    (∀ ts : PyDateTime,
      ((quarter_start ts).addMicro 900000000).toAbsMicro =
        (quarter_start ts).toAbsMicro + 900000000) ∧
    (∀ (cfg : Config) (cal : Calendar) (inp : TickInput) (st : CoordState),
      SlotCreatedOrKept inp.now st.active_slot
        (tick cfg cal inp st).active_slot) := by
  refine ⟨?_, ?_, ?_⟩
  · intro ts h
    refine ⟨?_, rfl, rfl⟩
    unfold quarter_start
    dsimp only
    omega
  · intro ts
    exact toAbsMicro_addMicro _ _
  · intro cfg cal inp st
    exact tick_sck cfg cal inp st

/-- Witness for C8 at 10:37:13.000005 — the quarter boundary is :30 with
zeroed seconds and microseconds. -/
theorem C8_slot_boundaries_witness :
    (⟨739000, 10, 37, 13, 5⟩ : PyDateTime).minute < 60 ∧
    ((quarter_start ⟨739000, 10, 37, 13, 5⟩).minute = 0 ∨
      (quarter_start ⟨739000, 10, 37, 13, 5⟩).minute = 15 ∨
      (quarter_start ⟨739000, 10, 37, 13, 5⟩).minute = 30 ∨
      (quarter_start ⟨739000, 10, 37, 13, 5⟩).minute = 45) ∧
    (quarter_start ⟨739000, 10, 37, 13, 5⟩).second = 0 ∧
    (quarter_start ⟨739000, 10, 37, 13, 5⟩).micro = 0 := by
  have h := C8_slot_boundaries.1 ⟨739000, 10, 37, 13, 5⟩ (by norm_num)
  exact ⟨by norm_num, h.1, h.2.1, h.2.2⟩

end MFFR
